import Mathlib

/-!
Verification of the stock-counter inventory application.

The development shallowly embeds the request handlers of the repository:
the inventory writer (`pages/api/update-inventory.ts`), the inventory
reader (`pages/api/products.ts`), the OAuth callback
(`pages/api/auth/callback.ts`) and the client diff computation
(`pages/index.tsx`).  JavaScript values that can be `undefined`, `null`
or an empty string are modelled with `Option String` together with an
explicit truthiness predicate; network effects are modelled by passing
the outcome of each external call as an explicit parameter, and the
sequence of external calls and delays performed by a handler is returned
as an explicit event trace.
-/

namespace StockCounter

/-- Truthiness of a JavaScript string value: `undefined`, `null` and the
empty string are falsy, every other string is truthy. -/
def strTruthy : Option String → Bool
  | none => false
  | some s => s ≠ ""

/-- JavaScript `a || b` for two possibly-absent strings: the left operand
wins when it is truthy. -/
def jsOrOpt (a b : Option String) : Option String :=
  if strTruthy a then a else b

/-- JavaScript `a || d` where `a` is a possibly-absent string and `d` a
string default. -/
def jsOrStr (a : Option String) (d : String) : String :=
  match a with
  | some s => if s = "" then d else s
  | none => d

/-- JavaScript `a || 0` for a possibly-absent number: `undefined`, `null`
and `0` give the default `0`, any other number passes through. -/
def jsOrZero : Option Int → Int
  | none => 0
  | some v => if v = 0 then 0 else v

/-- JavaScript `a || null` for a possibly-absent string. -/
def jsOrNull (a : Option String) : Option String :=
  if strTruthy a then a else none

/-- Character-level split, as JavaScript `String.prototype.split` with a
one-character separator.  Splitting the empty string yields `[""]`. -/
def jsSplitAux (sep : Char) : List Char → List Char → List String
  | [], acc => [String.mk acc.reverse]
  | c :: cs, acc =>
    if c = sep then String.mk acc.reverse :: jsSplitAux sep cs []
    else jsSplitAux sep cs (c :: acc)

/-- JavaScript `s.split(sep)` for a one-character separator. -/
def jsSplit (s : String) (sep : Char) : List String :=
  jsSplitAux sep s.toList []

/-- White-space test used by JavaScript `String.prototype.trim`. -/
def isJsSpace (c : Char) : Bool :=
  c = ' ' || c = '\t' || c = '\n' || c = '\r'

/-- JavaScript `s.trim()`. -/
def jsTrim (s : String) : String :=
  String.mk (((s.toList.dropWhile isJsSpace).reverse.dropWhile isJsSpace).reverse)

/-- JavaScript `s.startsWith(p)`. -/
def jsStartsWith (s p : String) : Bool :=
  p.toList.isPrefixOf s.toList

/-- Cookie lookup shared by the handlers: find the first `;`-separated
segment whose trimmed form starts with `name=` and return the text
between the first and second `=` of the untrimmed segment.  This is the
`cookies.split(';').find(...)` / `split('=')[1]` idiom of the source. -/
def getCookieValue (cookies name : String) : Option String :=
  ((jsSplit cookies ';').find? (fun c => jsStartsWith (jsTrim c) (name ++ "="))).bind
    (fun c => (jsSplit c '=').get? 1)

/-- Numeric value of a list of decimal digit characters. -/
def digitsVal (cs : List Char) : Nat :=
  cs.foldl (fun acc c => acc * 10 + (c.toNat - 48)) 0

/-- JavaScript `parseInt(s, 10)`: skip leading white space, read an
optional sign and then the longest prefix of decimal digits; `none`
models `NaN`. -/
def parseIntJS (s : String) : Option Int :=
  match s.toList.dropWhile isJsSpace with
  | '-' :: rest =>
    let ds := rest.takeWhile Char.isDigit
    if ds.isEmpty then none else some (-(digitsVal ds : Int))
  | '+' :: rest =>
    let ds := rest.takeWhile Char.isDigit
    if ds.isEmpty then none else some (digitsVal ds : Int)
  | cs =>
    let ds := cs.takeWhile Char.isDigit
    if ds.isEmpty then none else some (digitsVal ds : Int)

/-- Lexicographic comparison of character lists by code point; this is
the JavaScript default string order used by `Array.prototype.sort` on
keys (all keys in this application are ASCII). -/
def charListLe : List Char → List Char → Bool
  | [], _ => true
  | _ :: _, [] => false
  | a :: as, b :: bs =>
    if a.toNat < b.toNat then true
    else if b.toNat < a.toNat then false
    else charListLe as bs

/-- Code-unit string order, the concrete comparator used for witnesses. -/
def strLe (a b : String) : Bool :=
  charListLe a.toList b.toList

/-! ### Inventory Writer: `pages/api/update-inventory.ts` -/

/-- One element of the request body `updates` array. -/
structure InventoryUpdate where
  inventoryItemId : String
  locationId : String
  quantity : Int
deriving DecidableEq

/-- One entry of a GraphQL top-level `errors` array; the `message` field
may be absent. -/
structure GraphQLError where
  message : Option String
deriving DecidableEq

/-- One entry of the `userErrors` array of the mutation payload. -/
structure UserError where
  field : Option String
  message : Option String
deriving DecidableEq

/-- Outcome of one external mutation call, as observed by the handler:
either the HTTP response is not ok (carrying its status), or it is ok
and carries an optional top-level `errors` array and the optional
`data.inventorySetQuantities.userErrors` array (absent when any link of
the optional chain is missing). -/
inductive CallOutcome where
  | httpError (status : Nat)
  | httpOk (errors : Option (List GraphQLError)) (userErrors : Option (List UserError))
deriving DecidableEq

/-- Externally visible step of the batch loop: an outbound mutation call
for one update, or the fixed 100ms delay. -/
inductive Event where
  | call (u : InventoryUpdate)
  | delay
deriving DecidableEq

/-- The accumulated `results` object of the handler. -/
structure BatchResult where
  success : Nat
  failed : Nat
  errors : List String
deriving DecidableEq

/-- Test `data.errors || data.data?.inventorySetQuantities?.userErrors?.length > 0`:
a present `errors` array is truthy even when empty, and an absent
`userErrors` chain compares as `undefined > 0`, which is false. -/
def callFailed (errors : Option (List GraphQLError)) (userErrors : Option (List UserError)) : Bool :=
  errors.isSome ||
    (match userErrors with
     | some l => decide (0 < l.length)
     | none => false)

/-- The fallback chain
`data.errors?.[0]?.message || data.data?.inventorySetQuantities?.userErrors?.[0]?.message || 'Unknown error'`,
where an empty-string message is falsy like an absent one. -/
def errorMsgOf (errors : Option (List GraphQLError)) (userErrors : Option (List UserError)) : String :=
  let g := (errors.bind List.head?).bind GraphQLError.message
  let u := (userErrors.bind List.head?).bind UserError.message
  if strTruthy g then g.getD "" else if strTruthy u then u.getD "" else "Unknown error"

/-- The sequential batch loop of the handler.  The outcome of the `i`-th
external call is `env i`.  Per update: an HTTP-level failure increments
`failed`, records `API error for <item>: <status>` and `continue`s past
the delay; an ok response with GraphQL or user errors increments
`failed` and records `Failed <item>: <message>` before the delay;
otherwise `success` is incremented before the delay. -/
def processUpdates (env : Nat → CallOutcome) : List InventoryUpdate → BatchResult × List Event
  | [] => (⟨0, 0, []⟩, [])
  | u :: us =>
    let rest := processUpdates (fun n => env (n + 1)) us
    match env 0 with
    | .httpError status =>
      (⟨rest.1.success, rest.1.failed + 1,
        ("API error for " ++ u.inventoryItemId ++ ": " ++ toString status) :: rest.1.errors⟩,
       Event.call u :: rest.2)
    | .httpOk errors userErrors =>
      if callFailed errors userErrors then
        (⟨rest.1.success, rest.1.failed + 1,
          ("Failed " ++ u.inventoryItemId ++ ": " ++ errorMsgOf errors userErrors) :: rest.1.errors⟩,
         Event.call u :: Event.delay :: rest.2)
      else
        (⟨rest.1.success + 1, rest.1.failed, rest.1.errors⟩,
         Event.call u :: Event.delay :: rest.2)

/-- Response of the update-inventory handler: an error body
`{error, needsAuth?}` with its status, or the `results` object with
status 200. -/
inductive WriterResponse where
  | errorResp (status : Nat) (msg : String) (needsAuth : Bool)
  | results (status : Nat) (r : BatchResult)
deriving DecidableEq

/-- The update-inventory request handler.  `cookies` is the request
cookie header, `envToken` the `SHOPIFY_ACCESS_TOKEN` environment
variable, `updates` the parsed request body field (`none` models a
missing or non-array value), and `env` supplies the outcome of each
external call.  The second component is the trace of external calls and
delays performed. -/
def updateInventoryHandler (method : String) (cookies : String) (envToken : Option String)
    (updates : Option (List InventoryUpdate)) (env : Nat → CallOutcome) :
    WriterResponse × List Event :=
  if method ≠ "POST" then (.errorResp 405 "Method not allowed" false, [])
  else
    let accessToken := jsOrOpt (getCookieValue cookies "shopify_access_token") envToken
    if !(strTruthy accessToken) then (.errorResp 401 "Not authenticated" true, [])
    else
      match updates with
      | none => (.errorResp 400 "No updates provided" false, [])
      | some us =>
        if us.length = 0 then (.errorResp 400 "No updates provided" false, [])
        else
          let r := processUpdates env us
          (.results 200 r.1, r.2)

/-- Project the update called, if the event is a call. -/
def callOf : Event → Option InventoryUpdate
  | .call u => some u
  | .delay => none

/-- Check that every call event is immediately followed by a delay
event, the formal reading of `a fixed delay is inserted after every
call`. -/
def followedByDelay : List Event → Bool
  | [] => true
  | Event.call _ :: Event.delay :: rest => followedByDelay rest
  | Event.call _ :: _ => false
  | Event.delay :: rest => followedByDelay rest

/-- The error message an update contributes for a given call outcome,
`none` when the update is counted as a success. -/
def outcomeMsg (u : InventoryUpdate) : CallOutcome → Option String
  | .httpError status =>
    some ("API error for " ++ u.inventoryItemId ++ ": " ++ toString status)
  | .httpOk errors userErrors =>
    if callFailed errors userErrors then
      some ("Failed " ++ u.inventoryItemId ++ ": " ++ errorMsgOf errors userErrors)
    else none

/-- Delay events emitted after a call with the given outcome: the
`continue` on an HTTP-level failure skips the delay. -/
def delayEvents : CallOutcome → List Event
  | .httpError _ => []
  | .httpOk _ _ => [Event.delay]

/-- The list of call outcomes consumed by a batch of length `n`. -/
def outcomesList (env : Nat → CallOutcome) (n : Nat) : List CallOutcome :=
  (List.range n).map env

/-! ### Inventory Reader: `pages/api/products.ts` -/

/-- The `inventoryLevel` node returned per variant for the requested
location, when the variant is stocked there; `available` may be absent
or null. -/
structure InventoryLevelNode where
  id : String
  available : Option Int
deriving DecidableEq

/-- The `inventoryItem` node of a variant. -/
structure InventoryItemNode where
  id : String
  inventoryLevel : Option InventoryLevelNode
deriving DecidableEq

/-- A variant node of the upstream query response; `sku` may be null or
empty, and the whole `inventoryItem` link may be absent. -/
structure VariantNode where
  id : String
  sku : Option String
  title : String
  inventoryItem : Option InventoryItemNode
deriving DecidableEq

/-- A product node of the upstream query response. -/
structure ProductNode where
  id : String
  title : String
  featuredImageUrl : Option String
  variants : List VariantNode
deriving DecidableEq

/-- Parsed JSON body of the upstream response: an optional top-level
`errors` array and the `data.products.edges` list. -/
structure UpstreamBody where
  errors : Option (List GraphQLError)
  products : List ProductNode
deriving DecidableEq

/-- Outcome of the upstream fetch performed by the reader. -/
inductive FetchResult where
  | httpError (status : Nat)
  | ok (body : UpstreamBody)
deriving DecidableEq

/-- One formatted inventory record of the reader output. -/
structure InventoryRecord where
  id : String
  productId : String
  productTitle : String
  variantTitle : Option String
  sku : String
  image : Option String
  inventoryItemId : String
  inventoryLevelId : String
  currentStock : Int
deriving DecidableEq

/-- Build the record pushed for a stocked variant, field for field as in
the source: the variant title is dropped when it is `Default Title`, a
missing or empty sku becomes `No SKU`, a missing image becomes null and
`currentStock` is `inventoryLevel.available || 0`. -/
def recordOf (p : ProductNode) (v : VariantNode) (item : InventoryItemNode)
    (lvl : InventoryLevelNode) : InventoryRecord :=
  { id := v.id
    productId := p.id
    productTitle := p.title
    variantTitle := if v.title ≠ "Default Title" then some v.title else none
    sku := jsOrStr v.sku "No SKU"
    image := jsOrNull p.featuredImageUrl
    inventoryItemId := item.id
    inventoryLevelId := lvl.id
    currentStock := jsOrZero lvl.available }

/-- Format one variant: only variants with an inventory level at the
requested location produce a record. -/
def formatVariant (p : ProductNode) (v : VariantNode) : Option InventoryRecord :=
  match v.inventoryItem with
  | none => none
  | some item =>
    match item.inventoryLevel with
    | none => none
    | some lvl => some (recordOf p v item lvl)

/-- The nested formatting loop over products and their variants. -/
def formatProducts (ps : List ProductNode) : List InventoryRecord :=
  ps.flatMap (fun p => p.variants.filterMap (formatVariant p))

/-- Response of the products handler. -/
inductive ReaderResponse where
  | errorResp (status : Nat) (msg : String)
  | ok (products : List InventoryRecord)
deriving DecidableEq

/-- The products request handler.  `envToken` is the
`SHOPIFY_ACCESS_TOKEN` environment variable (this handler reads no
cookies), `le` the locale-aware string comparator used by
`sku.localeCompare`, and `fetch` the outcome of the single upstream
query.  A non-ok HTTP response or a present top-level `errors` array is
thrown and caught as a 500. -/
def productsHandler (method : String) (locationId : Option String)
    (envToken : Option String) (le : String → String → Bool)
    (fetch : FetchResult) : ReaderResponse :=
  if method ≠ "GET" then .errorResp 405 "Method not allowed"
  else if !(strTruthy locationId) then .errorResp 400 "Location ID is required"
  else if !(strTruthy envToken) then .errorResp 500 "Access token not configured"
  else
    match fetch with
    | .httpError status => .errorResp 500 ("Shopify API error: " ++ toString status)
    | .ok body =>
      match body.errors with
      | some errs => .errorResp 500 (jsOrStr (errs.head?.bind GraphQLError.message) "GraphQL error")
      | none =>
        .ok (List.mergeSort (formatProducts body.products) (fun a b => le a.sku b.sku))

/-! ### OAuth callback: `pages/api/auth/callback.ts` -/

/-- Parsed body of the token-exchange response. -/
structure TokenResponse where
  ok : Bool
  accessToken : Option String
deriving DecidableEq

/-- Response of the callback handler: a JSON error with its status, or
the redirect to `/` together with the `Set-Cookie` values. -/
inductive CallbackResponse where
  | errorResp (status : Nat) (msg : String)
  | redirect (location : String) (cookies : List String)
deriving DecidableEq

/-- Lookup of a query-string parameter. -/
def qget (query : List (String × String)) (k : String) : Option String :=
  (query.find? (fun p => p.1 = k)).map Prod.snd

/-- The message signed by the HMAC check: all query parameters except
`hmac`, sorted by key, rendered `key=value` and joined with `&`. -/
def hmacMessage (query : List (String × String)) : String :=
  String.intercalate "&"
    ((List.mergeSort (query.filter (fun p => p.1 ≠ "hmac")) (fun a b => strLe a.1 b.1)).map
      (fun p => p.1 ++ "=" ++ p.2))

/-- The OAuth callback handler.  `hmacFn secret message` models
`crypto.createHmac('sha256', secret).update(message).digest('hex')`;
`tokenResp` the outcome of the token-exchange POST.  The boolean result
records whether the token-exchange endpoint was called. -/
def callbackHandler (query : List (String × String)) (cookies : String)
    (apiKey apiSecret : Option String) (hmacFn : String → String → String)
    (tokenResp : TokenResponse) : CallbackResponse × Bool :=
  let code := qget query "code"
  let shop := qget query "shop"
  let state := qget query "state"
  let hmac := qget query "hmac"
  if !(strTruthy code && strTruthy shop && strTruthy state) then
    (.errorResp 400 "Missing required parameters", false)
  else if !(strTruthy apiKey && strTruthy apiSecret) then
    (.errorResp 500 "API credentials not configured", false)
  else
    let storedNonce := getCookieValue cookies "shopify_nonce"
    if state ≠ storedNonce then
      (.errorResp 403 "Invalid state parameter", false)
    else if strTruthy hmac && hmac ≠ some (hmacFn (apiSecret.getD "") (hmacMessage query)) then
      (.errorResp 403 "Invalid HMAC", false)
    else if !tokenResp.ok then
      (.errorResp 500 "Failed to get access token", true)
    else
      (.redirect "/"
        [("shopify_access_token=" ++ jsOrStr tokenResp.accessToken "undefined"
            ++ "; Path=/; HttpOnly; Secure; SameSite=Lax; Max-Age=31536000"),
         ("shopify_shop=" ++ (shop.getD "")
            ++ "; Path=/; HttpOnly; Secure; SameSite=Lax; Max-Age=31536000"),
         "shopify_nonce=; Path=/; HttpOnly; Secure; SameSite=Lax; Max-Age=0"], true)

/-! ### Client diff computation: `pages/index.tsx` -/

/-- The client-side product record used by the diff computation. -/
structure UIProduct where
  id : String
  productId : String
  productTitle : String
  variantTitle : Option String
  sku : String
  image : Option String
  inventoryItemId : String
  inventoryLevelId : String
  currentStock : Int
deriving DecidableEq

/-- A pending stock change emitted by the diff; `newValue` is the
`parseInt` of the edit text, `none` modelling `NaN`. -/
structure StockChange where
  inventoryItemId : String
  sku : String
  oldValue : Int
  newValue : Option Int
deriving DecidableEq

/-- The `handleStockChange` input filter: a non-empty value that is not
all digits is rejected and the state is unchanged; otherwise the edit
map is updated at `productId`. -/
def handleStockChange (prev : String → Option String) (productId value : String) :
    String → Option String :=
  if value ≠ "" && !(value.toList.all Char.isDigit) then prev
  else fun id => if id = productId then some value else prev id

/-- The `changes` memo: for each baseline product whose edit is defined,
differs from `currentStock.toString()` and is non-empty, emit a
`StockChange` carrying `parseInt(edit, 10)`. -/
def changesOf (products : List UIProduct) (stockValues : String → Option String) :
    List StockChange :=
  products.filterMap fun p =>
    match stockValues p.id with
    | none => none
    | some v =>
      if v ≠ toString p.currentStock ∧ v ≠ "" then
        some ⟨p.inventoryItemId, p.sku, p.currentStock, parseIntJS v⟩
      else none

/-- Guard of the diff in the words of the amended claim: the edit
exists, differs from `currentStock.toString()` as a string, and is
non-empty. -/
def specEmitsChange (stockValues : String → Option String) (p : UIProduct) : Bool :=
  match stockValues p.id with
  | some v => decide (v ≠ toString p.currentStock ∧ v ≠ "")
  | none => false

/-- The change emitted for a product whose guard holds. -/
def specChangeOf (stockValues : String → Option String) (p : UIProduct) : StockChange :=
  { inventoryItemId := p.inventoryItemId
    sku := p.sku
    oldValue := p.currentStock
    newValue := (stockValues p.id).bind parseIntJS }

/-- Decidable statement that every inventory level of an upstream body
reports a non-negative available quantity (when it reports one at all). -/
def upstreamNonneg (body : UpstreamBody) : Bool :=
  body.products.all fun p => p.variants.all fun v =>
    v.inventoryItem.all fun item => item.inventoryLevel.all fun lvl =>
      lvl.available.all fun q => decide (0 ≤ q)

/-! ### Concrete sample data used by witnesses and counterexamples -/

/-- Sample batch of two updates. -/
def wUpdates : List InventoryUpdate :=
  [⟨"gid-item-A", "62584946887", 5⟩, ⟨"gid-item-B", "62584946887", 7⟩]

/-- Sample call environment: the first call is rate limited at the HTTP
level, the second returns a field-level validation error. -/
def wEnv : Nat → CallOutcome := fun n =>
  if n = 0 then .httpError 429
  else .httpOk none (some [⟨some "quantity", some "Invalid quantity"⟩])

/-- Sample variant stocked at the queried location. -/
def wStockedVariant : VariantNode :=
  ⟨"gid-v1", some "SKU-1", "Default Title", some ⟨"gid-item-1", some ⟨"gid-lvl-1", some 4⟩⟩⟩

/-- Sample variant with no inventory level at the queried location. -/
def wUnstockedVariant : VariantNode :=
  ⟨"gid-v2", some "SKU-2", "Large", some ⟨"gid-item-2", none⟩⟩

/-- Sample upstream body: one product with one stocked and one
unstocked variant. -/
def wBody : UpstreamBody :=
  ⟨none, [⟨"gid-p1", "Widget", none, [wStockedVariant, wUnstockedVariant]⟩]⟩

/-- The single record the reader produces from `wBody`. -/
def wRecord : InventoryRecord :=
  recordOf ⟨"gid-p1", "Widget", none, [wStockedVariant, wUnstockedVariant]⟩ wStockedVariant
    ⟨"gid-item-1", some ⟨"gid-lvl-1", some 4⟩⟩ ⟨"gid-lvl-1", some 4⟩

/-- Upstream body whose only inventory level reports `available = -3`. -/
def negBody : UpstreamBody :=
  ⟨none, [⟨"gid-pn", "Widget", none,
    [⟨"gid-vn", some "SKU-N", "Default Title", some ⟨"gid-item-n", some ⟨"gid-lvl-n", some (-3)⟩⟩⟩]⟩]⟩

/-- The record the reader produces from `negBody`. -/
def negRecord : InventoryRecord :=
  { id := "gid-vn", productId := "gid-pn", productTitle := "Widget", variantTitle := none,
    sku := "SKU-N", image := none, inventoryItemId := "gid-item-n",
    inventoryLevelId := "gid-lvl-n", currentStock := -3 }

/-- Sample client baseline record with a current stock of 5. -/
def cBaseline : UIProduct :=
  ⟨"v1", "p1", "Widget", none, "SKU1", none, "item1", "lvl1", 5⟩

/-- Sample edit state: the digits-only input filter accepts the edit
`05` for the baseline product. -/
def cEdits : String → Option String :=
  handleStockChange (fun _ => none) "v1" "05"

/-! ### Helper lemmas -/

theorem charListLe_total : ∀ as bs, (charListLe as bs || charListLe bs as) = true := by
  intro as
  induction as with
  | nil => intro bs; simp [charListLe]
  | cons a as ih =>
    intro bs
    cases bs with
    | nil => simp [charListLe]
    | cons b bs =>
      simp only [charListLe]
      by_cases h1 : a.toNat < b.toNat
      · simp [h1]
      · by_cases h2 : b.toNat < a.toNat
        · simp [h1, h2]
        · simp [h1, h2, ih bs]

theorem charListLe_trans :
    ∀ as bs cs, charListLe as bs = true → charListLe bs cs = true → charListLe as cs = true := by
  intro as
  induction as with
  | nil => intro bs cs _ _; simp [charListLe]
  | cons a as ih =>
    intro bs cs hab hbc
    cases bs with
    | nil => simp [charListLe] at hab
    | cons b bs =>
      cases cs with
      | nil => simp [charListLe] at hbc
      | cons c cs =>
        simp only [charListLe] at hab hbc ⊢
        by_cases h1 : a.toNat < b.toNat <;> by_cases h2 : b.toNat < a.toNat <;>
          by_cases h3 : b.toNat < c.toNat <;> by_cases h4 : c.toNat < b.toNat <;>
          by_cases h5 : a.toNat < c.toNat <;> by_cases h6 : c.toNat < a.toNat <;>
          simp only [h1, h2, h3, h4, h5, h6, if_true, if_false, ite_true, ite_false,
            if_pos, if_neg] at hab hbc ⊢ <;>
        first
          | rfl
          | omega
          | (exact ih bs cs hab hbc)
          | (simp at hab)
          | (simp at hbc)

theorem strLe_trans : ∀ a b c, strLe a b = true → strLe b c = true → strLe a c = true :=
  fun a b c => charListLe_trans a.toList b.toList c.toList

theorem strLe_total : ∀ a b, (strLe a b || strLe b a) = true :=
  fun a b => charListLe_total a.toList b.toList

theorem processUpdates_calls (env : Nat → CallOutcome) (us : List InventoryUpdate) :
    ((processUpdates env us).2).filterMap callOf = us := by
  induction us generalizing env with
  | nil => rfl
  | cons u us ih =>
    cases h : env 0 with
    | httpError s => simp [processUpdates, h, callOf, ih]
    | httpOk e ue =>
      by_cases hf : callFailed e ue <;> simp [processUpdates, h, hf, callOf, ih]

theorem processUpdates_counts (env : Nat → CallOutcome) (us : List InventoryUpdate) :
    (processUpdates env us).1.success + (processUpdates env us).1.failed = us.length := by
  induction us generalizing env with
  | nil => rfl
  | cons u us ih =>
    have := ih (fun n => env (n + 1))
    cases h : env 0 with
    | httpError s => simp [processUpdates, h]; omega
    | httpOk e ue =>
      by_cases hf : callFailed e ue <;> simp [processUpdates, h, hf] <;> omega

theorem outcomesList_succ (env : Nat → CallOutcome) (n : Nat) :
    outcomesList env (n + 1) = env 0 :: outcomesList (fun k => env (k + 1)) n := by
  simp [outcomesList, List.range_succ_eq_map, List.map_map]

theorem processUpdates_errors (env : Nat → CallOutcome) (us : List InventoryUpdate) :
    (processUpdates env us).1.errors
      = (us.zip (outcomesList env us.length)).filterMap (fun p => outcomeMsg p.1 p.2) := by
  induction us generalizing env with
  | nil => rfl
  | cons u us ih =>
    rw [List.length_cons, outcomesList_succ, List.zip_cons_cons, List.filterMap_cons]
    cases h : env 0 with
    | httpError s => simp [processUpdates, h, outcomeMsg, ih]
    | httpOk e ue =>
      by_cases hf : callFailed e ue <;> simp [processUpdates, h, hf, outcomeMsg, ih]

theorem processUpdates_errors_length (env : Nat → CallOutcome) (us : List InventoryUpdate) :
    (processUpdates env us).1.errors.length = (processUpdates env us).1.failed := by
  induction us generalizing env with
  | nil => rfl
  | cons u us ih =>
    cases h : env 0 with
    | httpError s => simp [processUpdates, h, ih]
    | httpOk e ue =>
      by_cases hf : callFailed e ue <;> simp [processUpdates, h, hf, ih]

theorem processUpdates_events (env : Nat → CallOutcome) (us : List InventoryUpdate) :
    (processUpdates env us).2
      = (us.zip (outcomesList env us.length)).flatMap
          (fun p => Event.call p.1 :: delayEvents p.2) := by
  induction us generalizing env with
  | nil => rfl
  | cons u us ih =>
    rw [List.length_cons, outcomesList_succ, List.zip_cons_cons, List.flatMap_cons]
    cases h : env 0 with
    | httpError s => simp [processUpdates, h, delayEvents, ih]
    | httpOk e ue =>
      by_cases hf : callFailed e ue <;> simp [processUpdates, h, hf, delayEvents, ih]

theorem productsHandler_ok_inv {method : String} {locationId envToken : Option String}
    {le : String → String → Bool} {body : UpstreamBody} {ps : List InventoryRecord}
    (h : productsHandler method locationId envToken le (.ok body) = .ok ps) :
    ps = List.mergeSort (formatProducts body.products) (fun a b => le a.sku b.sku) := by
  unfold productsHandler at h
  split at h
  · exact absurd h (by simp)
  · split at h
    · exact absurd h (by simp)
    · split at h
      · exact absurd h (by simp)
      · cases hb : body.errors with
        | some errs => simp [hb] at h
        | none => simp [hb] at h; exact h.symm

theorem mem_formatProducts {prods : List ProductNode} {r : InventoryRecord}
    (hr : r ∈ formatProducts prods) :
    ∃ p ∈ prods, ∃ v ∈ p.variants, ∃ item lvl,
      v.inventoryItem = some item ∧ item.inventoryLevel = some lvl ∧ r = recordOf p v item lvl := by
  rcases List.mem_flatMap.mp hr with ⟨p, hp, hv⟩
  rcases List.mem_filterMap.mp hv with ⟨v, hvmem, hfv⟩
  refine ⟨p, hp, v, hvmem, ?_⟩
  unfold formatVariant at hfv
  cases hitem : v.inventoryItem with
  | none => simp [hitem] at hfv
  | some item =>
    cases hlvl : item.inventoryLevel with
    | none => simp [hitem, hlvl] at hfv
    | some lvl =>
      simp [hitem, hlvl] at hfv
      exact ⟨item, lvl, rfl, hlvl, hfv.symm⟩

/-! ### Claim theorems -/

/-- Claim C1: given a POST request with a truthy credential, the writer
answers 400 `No updates provided` with no external call when the update
list is empty; otherwise it returns the loop result with status 200,
the trace of external calls is exactly the update list in input order
(one call per update, so a failure never blocks later items), and the
final counts satisfy `success + failed = n`. -/
theorem writer_batch_sequential_contract (method : String) (cookies : String)
    (envToken : Option String) (us : List InventoryUpdate) (env : Nat → CallOutcome)
    (hm : method = "POST")
    (ht : strTruthy (jsOrOpt (getCookieValue cookies "shopify_access_token") envToken) = true) :
    (us = [] →
      updateInventoryHandler method cookies envToken (some us) env
        = (.errorResp 400 "No updates provided" false, [])) ∧
    (us ≠ [] →
      (updateInventoryHandler method cookies envToken (some us) env).1
          = .results 200 (processUpdates env us).1 ∧
      ((updateInventoryHandler method cookies envToken (some us) env).2).filterMap callOf = us ∧
      (processUpdates env us).1.success + (processUpdates env us).1.failed = us.length) := by
  subst hm
  constructor
  · rintro rfl
    simp [updateInventoryHandler, ht]
  · intro hne
    have hlen : ¬ us.length = 0 := fun h => hne (List.length_eq_zero.mp h)
    simp only [updateInventoryHandler, ht, if_neg hlen]
    simp [hlen]
    exact ⟨processUpdates_calls env us, processUpdates_counts env us⟩

/-- Witness for claim C1 at a concrete two-element batch whose first
call fails at the HTTP level and whose second call carries a user
error. -/
theorem writer_batch_sequential_contract_witness :
    (updateInventoryHandler "POST" "shopify_access_token=t" none (some wUpdates) wEnv).1
        = .results 200 (processUpdates wEnv wUpdates).1 ∧
    ((updateInventoryHandler "POST" "shopify_access_token=t" none (some wUpdates) wEnv).2).filterMap
        callOf = wUpdates ∧
    (processUpdates wEnv wUpdates).1.success + (processUpdates wEnv wUpdates).1.failed
        = wUpdates.length :=
  (writer_batch_sequential_contract "POST" "shopify_access_token=t" none wUpdates wEnv rfl
    (by decide)).2 (by decide)

/-- Counterexample to claim C2: on a one-element batch whose external
call fails at the HTTP level, the `continue` statement skips the 100ms
delay, so the trace does not have a delay after every call. -/
theorem writer_no_delay_after_http_failure :
    followedByDelay
      (updateInventoryHandler "POST" "shopify_access_token=t" none
        (some [⟨"gid-item-A", "62584946887", 5⟩]) (fun _ => CallOutcome.httpError 500)).2
      = false := by decide

/-- Claim C2 as amended: the batch loop emits the 100ms delay exactly
after each call whose HTTP response is ok (whether or not the response
carries errors); a call that fails at the transport or HTTP level is
not followed by a delay. -/
theorem writer_delay_exactly_after_ok_responses (env : Nat → CallOutcome)
    (us : List InventoryUpdate) :
    (processUpdates env us).2
      = (us.zip (outcomesList env us.length)).flatMap
          (fun p => Event.call p.1 :: delayEvents p.2) :=
  processUpdates_events env us

/-- Claim C10: the errors list of the batch result is exactly the
(in input order) list of the messages of the failing updates, each
failed update contributing one message and each successful update none,
so its length equals the failed count. -/
theorem writer_errors_match_failures (env : Nat → CallOutcome) (us : List InventoryUpdate) :
    (processUpdates env us).1.errors
        = (us.zip (outcomesList env us.length)).filterMap (fun p => outcomeMsg p.1 p.2) ∧
    (processUpdates env us).1.errors.length = (processUpdates env us).1.failed :=
  ⟨processUpdates_errors env us, processUpdates_errors_length env us⟩

/-- Claim C3, divergence witness: with a valid `locationId` and no
access token configured, the products handler answers
500 `Access token not configured`, not 401 with `needsAuth`. -/
theorem reader_missing_token_responds_500 :
    productsHandler "GET" (some "62584946887") none strLe (.ok ⟨none, []⟩)
      = .errorResp 500 "Access token not configured" := by decide

/-- Claim C7: every record in a successful reader output originates
from a variant that has an inventory item with an inventory level at
the requested location; a variant without such a level contributes
nothing. -/
theorem reader_excludes_unstocked_variants (method : String)
    (locationId envToken : Option String) (le : String → String → Bool)
    (body : UpstreamBody) (ps : List InventoryRecord)
    (h : productsHandler method locationId envToken le (.ok body) = .ok ps)
    (r : InventoryRecord) (hr : r ∈ ps) :
    ∃ p ∈ body.products, ∃ v ∈ p.variants, ∃ item lvl,
      v.inventoryItem = some item ∧ item.inventoryLevel = some lvl ∧
      r = recordOf p v item lvl := by
  obtain rfl := productsHandler_ok_inv h
  exact mem_formatProducts (List.mem_mergeSort.mp hr)

/-- Witness for claim C7 on a body with one stocked and one unstocked
variant: the single output record comes from the stocked variant. -/
theorem reader_excludes_unstocked_variants_witness :
    ∃ p ∈ wBody.products, ∃ v ∈ p.variants, ∃ item lvl,
      v.inventoryItem = some item ∧ item.inventoryLevel = some lvl ∧
      wRecord = recordOf p v item lvl := by
  have h : productsHandler "GET" (some "62584946887") (some "tok") strLe (.ok wBody)
      = .ok (List.mergeSort [wRecord] (fun a b => strLe a.sku b.sku)) := rfl
  rw [List.mergeSort_singleton] at h
  exact reader_excludes_unstocked_variants "GET" (some "62584946887") (some "tok") strLe
    wBody [wRecord] h wRecord (by simp)

/-- Claim C8: for any comparator that is transitive and total (as the
locale comparator of `localeCompare` is), a successful reader output is
pairwise sorted by sku, and the sort is stable: any subsequence of the
formatted records whose skus are pairwise tied keeps its original order
in the output. -/
theorem reader_output_sorted_by_sku (le : String → String → Bool)
    (htrans : ∀ a b c, le a b = true → le b c = true → le a c = true)
    (htotal : ∀ a b, (le a b || le b a) = true)
    (method : String) (locationId envToken : Option String) (body : UpstreamBody)
    (ps : List InventoryRecord)
    (h : productsHandler method locationId envToken le (.ok body) = .ok ps) :
    ps.Pairwise (fun a b => le a.sku b.sku = true) ∧
    ∀ c : List InventoryRecord,
      c.Pairwise (fun a b => le a.sku b.sku = true ∧ le b.sku a.sku = true) →
      c.Sublist (formatProducts body.products) → c.Sublist ps := by
  obtain rfl := productsHandler_ok_inv h
  refine ⟨?_, ?_⟩
  · exact List.sorted_mergeSort (fun a b c hab hbc => htrans a.sku b.sku c.sku hab hbc)
      (fun a b => htotal a.sku b.sku) _
  · intro c hc hsub
    exact List.sublist_mergeSort (fun a b c hab hbc => htrans a.sku b.sku c.sku hab hbc)
      (fun a b => htotal a.sku b.sku) (hc.imp And.left) hsub

/-- Witness for claim C8 with the concrete code-unit comparator and the
sample upstream body. -/
theorem reader_output_sorted_by_sku_witness :
    ([wRecord] : List InventoryRecord).Pairwise (fun a b => strLe a.sku b.sku = true) ∧
    ∀ c : List InventoryRecord,
      c.Pairwise (fun a b => strLe a.sku b.sku = true ∧ strLe b.sku a.sku = true) →
      c.Sublist (formatProducts wBody.products) → c.Sublist [wRecord] := by
  have h : productsHandler "GET" (some "62584946887") (some "tok") strLe (.ok wBody)
      = .ok (List.mergeSort [wRecord] (fun a b => strLe a.sku b.sku)) := rfl
  rw [List.mergeSort_singleton] at h
  exact reader_output_sorted_by_sku strLe strLe_trans strLe_total "GET" (some "62584946887")
    (some "tok") wBody [wRecord] h

/-- Counterexample to claim C9: when the upstream body reports
`available = -3`, the reader emits a record with `currentStock = -3`,
because `available || 0` only replaces null, undefined and 0. -/
theorem reader_negative_stock_passthrough :
    productsHandler "GET" (some "62584946887") (some "tok") strLe (.ok negBody)
        = .ok [negRecord] ∧ negRecord.currentStock < 0 := by
  constructor
  · have h : productsHandler "GET" (some "62584946887") (some "tok") strLe (.ok negBody)
        = .ok (List.mergeSort [negRecord] (fun a b => strLe a.sku b.sku)) := rfl
    rw [List.mergeSort_singleton] at h
    exact h
  · decide

/-- Claim C9 as amended: whenever every available quantity reported by
the upstream body is non-negative, every record of a successful reader
output has a non-negative `currentStock`. -/
theorem reader_stock_nonneg_of_nonneg_upstream (method : String)
    (locationId envToken : Option String) (le : String → String → Bool)
    (body : UpstreamBody) (ps : List InventoryRecord)
    (hnn : upstreamNonneg body = true)
    (h : productsHandler method locationId envToken le (.ok body) = .ok ps) :
    ∀ r ∈ ps, 0 ≤ r.currentStock := by
  obtain rfl := productsHandler_ok_inv h
  intro r hr
  obtain ⟨p, hp, v, hv, item, lvl, hitem, hlvl, hrec⟩ :=
    mem_formatProducts (List.mem_mergeSort.mp hr)
  simp only [upstreamNonneg, List.all_eq_true] at hnn
  have hq := hnn p hp v hv
  rw [hitem] at hq
  simp only [Option.all_some] at hq
  rw [hlvl] at hq
  simp only [Option.all_some] at hq
  subst hrec
  simp only [recordOf]
  cases hav : lvl.available with
  | none => simp [jsOrZero]
  | some q =>
    rw [hav] at hq
    simp only [Option.all_some, decide_eq_true_eq] at hq
    by_cases hz : q = 0 <;> simp [jsOrZero, hav, hz]
    omega

/-- Witness for the amended claim C9 on the sample body whose only
available quantity is 4. -/
theorem reader_stock_nonneg_witness :
    0 ≤ wRecord.currentStock := by
  have h : productsHandler "GET" (some "62584946887") (some "tok") strLe (.ok wBody)
      = .ok (List.mergeSort [wRecord] (fun a b => strLe a.sku b.sku)) := rfl
  rw [List.mergeSort_singleton] at h
  exact reader_stock_nonneg_of_nonneg_upstream "GET" (some "62584946887") (some "tok") strLe
    wBody [wRecord] (by decide) h wRecord (by simp)

/-- Counterexample to claim C4: the edit `05` for a baseline stock of 5
passes the digits-only input filter, differs from `"5"` as a string and
is therefore emitted, yet it parses to the same numeric value as
`currentStock`; so a change is emitted although the edit does not parse
to a different value. -/
theorem diff_emits_leading_zero_edit :
    changesOf [cBaseline] cEdits = [⟨"item1", "SKU1", 5, some 5⟩] ∧
    parseIntJS "05" = some cBaseline.currentStock := by decide

/-- Claim C4 as amended: the diff emits a change for a baseline record
exactly when its edit exists, is non-empty and differs from
`currentStock.toString()` as a string (the comparison is on strings,
not on parsed numeric values); the emitted change carries the parsed
edit as `newValue`.  In particular an edit equal to
`currentStock.toString()` never yields a change. -/
theorem diff_emits_iff_string_differs (ps : List UIProduct) (sv : String → Option String) :
    changesOf ps sv = (ps.filter (specEmitsChange sv)).map (specChangeOf sv) := by
  induction ps with
  | nil => rfl
  | cons p ps ih =>
    simp only [changesOf] at ih ⊢
    rw [List.filterMap_cons, List.filter_cons]
    cases h : sv p.id with
    | none => simp [specEmitsChange, h, ih]
    | some v =>
      by_cases hg : v ≠ toString p.currentStock ∧ v ≠ ""
      · simp [specEmitsChange, specChangeOf, h, hg, ih]
      · simp [specEmitsChange, h, hg, ih]

/-- Claim C5: whenever the required callback parameters and API
credentials are present but the `state` query parameter does not equal
the nonce stored in the `shopify_nonce` cookie (including a missing
cookie), the callback handler answers 403 `Invalid state parameter`
and the token-exchange endpoint is not called. -/
theorem callback_state_mismatch_rejected (query : List (String × String)) (cookies : String)
    (apiKey apiSecret : Option String) (hmacFn : String → String → String)
    (tokenResp : TokenResponse)
    (hcode : strTruthy (qget query "code") = true)
    (hshop : strTruthy (qget query "shop") = true)
    (hstate : strTruthy (qget query "state") = true)
    (hkey : strTruthy apiKey = true)
    (hsecret : strTruthy apiSecret = true)
    (hnonce : qget query "state" ≠ getCookieValue cookies "shopify_nonce") :
    callbackHandler query cookies apiKey apiSecret hmacFn tokenResp
      = (.errorResp 403 "Invalid state parameter", false) := by
  simp [callbackHandler, hcode, hshop, hstate, hkey, hsecret, hnonce]

/-- Witness for claim C5: a callback carrying `state=n2` against a
stored nonce `n1` is rejected without a token exchange. -/
theorem callback_state_mismatch_rejected_witness :
    callbackHandler [("code", "c1"), ("shop", "shop1.myshopify.com"), ("state", "n2")]
      "shopify_nonce=n1" (some "key") (some "secret") (fun _ _ => "H")
      ⟨true, some "tok"⟩
      = (.errorResp 403 "Invalid state parameter", false) :=
  callback_state_mismatch_rejected _ _ _ _ _ _ (by decide) (by decide) (by decide)
    (by decide) (by decide) (by decide)

/-- Claim C6: when an `hmac` query parameter is present and does not
equal the HMAC-SHA256 of the remaining query parameters sorted by key
and joined as `key=value` with `&`, the handler answers 403 before any
token-exchange call; and when `hmac` is absent the HMAC function is
never consulted, so the result does not depend on it. -/
theorem callback_hmac_guard :
    (∀ (query : List (String × String)) (cookies : String) (apiKey apiSecret : Option String)
        (hmacFn : String → String → String) (tokenResp : TokenResponse),
      strTruthy (qget query "code") = true →
      strTruthy (qget query "shop") = true →
      strTruthy (qget query "state") = true →
      strTruthy apiKey = true →
      strTruthy apiSecret = true →
      strTruthy (qget query "hmac") = true →
      qget query "hmac" ≠ some (hmacFn (apiSecret.getD "") (hmacMessage query)) →
      ∃ m, callbackHandler query cookies apiKey apiSecret hmacFn tokenResp
          = (.errorResp 403 m, false)) ∧
    (∀ (query : List (String × String)) (cookies : String) (apiKey apiSecret : Option String)
        (f g : String → String → String) (tokenResp : TokenResponse),
      strTruthy (qget query "hmac") = false →
      callbackHandler query cookies apiKey apiSecret f tokenResp
        = callbackHandler query cookies apiKey apiSecret g tokenResp) := by
  constructor
  · intro query cookies apiKey apiSecret hmacFn tokenResp hcode hshop hstate hkey hsecret
      hhmac hbad
    by_cases hnonce : qget query "state" ≠ getCookieValue cookies "shopify_nonce"
    · exact ⟨"Invalid state parameter",
        by simp [callbackHandler, hcode, hshop, hstate, hkey, hsecret, hnonce]⟩
    · exact ⟨"Invalid HMAC",
        by simp [callbackHandler, hcode, hshop, hstate, hkey, hsecret, hnonce, hhmac, hbad]⟩
  · intro query cookies apiKey apiSecret f g tokenResp hh
    simp [callbackHandler, hh]

/-- Witness for claim C6: a tampered `hmac` value is rejected with 403
and no token exchange, for a matching nonce and a concrete HMAC
function. -/
theorem callback_hmac_guard_witness :
    ∃ m, callbackHandler
        [("code", "c1"), ("shop", "shop1.myshopify.com"), ("state", "n1"), ("hmac", "deadbeef")]
        "shopify_nonce=n1" (some "key") (some "secret") (fun _ _ => "HX")
        ⟨true, some "tok"⟩
      = (.errorResp 403 m, false) :=
  callback_hmac_guard.1 _ _ _ _ _ _ (by decide) (by decide) (by decide) (by decide)
    (by decide) (by decide) (by decide)

end StockCounter
